import Mathlib

/-
Verification development for the `ray-tracer` repository.

The Rust source is shallowly embedded in Lean: `f64` values are modelled as
real numbers, `usize` values as naturals, and the `f64` value `INFINITY`
(used as the upper end of shadow-ray parameter ranges) as the top element of
`WithTop ℝ`.  Fallible operations return `Option`, mirroring the source.
Each definition mirrors one item of `src/linalg.rs`, `src/object.rs`,
`src/color.rs`, `src/light.rs` or `src/lib.rs` and keeps its name.
-/

noncomputable section

namespace RayTracer

/-- `f64::EPSILON` (2⁻⁵²), used by `object.rs` and `lib.rs`. -/
def EPSILON : ℝ := 1 / 2 ^ 52

/-! ## linalg.rs: Vec3d -/

/-- `Vec3d` from `src/linalg.rs`. -/
structure Vec3d where
  x : ℝ
  y : ℝ
  z : ℝ

/-- `Vec3d::magnitude`. -/
def Vec3d.magnitude (v : Vec3d) : ℝ :=
  Real.sqrt (v.x * v.x + v.y * v.y + v.z * v.z)

/-- `impl Add for &Vec3d`. -/
instance : Add Vec3d :=
  ⟨fun a b => ⟨a.x + b.x, a.y + b.y, a.z + b.z⟩⟩

/-- `impl Sub for &Vec3d`. -/
instance : Sub Vec3d :=
  ⟨fun a b => ⟨a.x - b.x, a.y - b.y, a.z - b.z⟩⟩

/-- `impl Mul<f64> for &Vec3d` (scaling). -/
def Vec3d.smul (v : Vec3d) (f : ℝ) : Vec3d :=
  ⟨v.x * f, v.y * f, v.z * f⟩

/-- `impl Mul for &Vec3d` (dot product). -/
def Vec3d.dot (a b : Vec3d) : ℝ :=
  a.x * b.x + a.y * b.y + a.z * b.z

/-- `Vec3d::normalize`: scales by the reciprocal magnitude, returning the
vector unchanged when the magnitude is zero. -/
def Vec3d.normalize (v : Vec3d) : Vec3d :=
  if v.magnitude ≠ 0 then v.smul (1 / v.magnitude) else v

/-- `Vec3d::reflect`. -/
def Vec3d.reflect (v norm : Vec3d) : Vec3d :=
  ((norm.normalize).smul ((norm.normalize).dot v)).smul 2 - v

/-- `Vec3d::cross`. -/
def Vec3d.cross (a b : Vec3d) : Vec3d :=
  ⟨a.y * b.z - a.z * b.y, a.z * b.x - a.x * b.z, a.x * b.y - a.y * b.x⟩

/-! ## linalg.rs: Ray -/

/-- `Ray` from `src/linalg.rs`. -/
structure Ray where
  origin : Vec3d
  dir : Vec3d

/-- `Ray::at`: `origin + dir * t`. -/
def Ray.pointAt (r : Ray) (t : ℝ) : Vec3d :=
  r.origin + r.dir.smul t

/-! ## linalg.rs: Mat3 -/

/-- `Mat3` from `src/linalg.rs`: a row-major 3×3 matrix of floats. -/
abbrev Mat3 := Matrix (Fin 3) (Fin 3) ℝ

/-- `Mat3::identity`. -/
def Mat3.identity : Mat3 := !![1, 0, 0; 0, 1, 0; 0, 0, 1]

/-- `Mat3::rotation_y`. -/
def Mat3.rotation_y (deg : ℝ) : Mat3 :=
  !![Real.cos (deg * (Real.pi / 180)), 0, Real.sin (deg * (Real.pi / 180));
     0, 1, 0;
     -Real.sin (deg * (Real.pi / 180)), 0, Real.cos (deg * (Real.pi / 180))]

/-- The `u_skew` matrix built inside `Mat3::rotation_matrix` (the
cross-product matrix of the axis). -/
def skewMatrix (axis : Vec3d) : Mat3 :=
  !![0, -axis.z, axis.y; axis.z, 0, -axis.x; -axis.y, axis.x, 0]

/-- `Mat3::rotation_matrix` from `src/linalg.rs`, translated verbatim:
`result[i][j] = I[i][j] + sin·u_skew[i][j] + (1−cos)·u_skew_squared[i][j]`
with the source's `u_skew_squared` entries copied as written (note that the
source's `u_skew_squared` places `x²+y²+z²` on the diagonal and already
mixes `(1−cos)`/`sin` factors into its off-diagonal entries). -/
def Mat3.rotation_matrix (axis : Vec3d) (angle : ℝ) : Mat3 :=
  Matrix.of fun i j =>
    Mat3.identity i j
      + Real.sin (angle * (Real.pi / 180)) * skewMatrix axis i j
      + (1 - Real.cos (angle * (Real.pi / 180))) *
        (!![axis.x * axis.x + axis.y * axis.y + axis.z * axis.z,
            axis.x * axis.y * (1 - Real.cos (angle * (Real.pi / 180)))
              - axis.z * Real.sin (angle * (Real.pi / 180)),
            axis.x * axis.z * (1 - Real.cos (angle * (Real.pi / 180)))
              + axis.y * Real.sin (angle * (Real.pi / 180));
            axis.x * axis.y * (1 - Real.cos (angle * (Real.pi / 180)))
              + axis.z * Real.sin (angle * (Real.pi / 180)),
            axis.x * axis.x + axis.y * axis.y + axis.z * axis.z,
            axis.y * axis.z * (1 - Real.cos (angle * (Real.pi / 180)))
              - axis.x * Real.sin (angle * (Real.pi / 180));
            axis.x * axis.z * (1 - Real.cos (angle * (Real.pi / 180)))
              - axis.y * Real.sin (angle * (Real.pi / 180)),
            axis.y * axis.z * (1 - Real.cos (angle * (Real.pi / 180)))
              + axis.x * Real.sin (angle * (Real.pi / 180)),
            axis.x * axis.x + axis.y * axis.y + axis.z * axis.z] : Mat3) i j

/-- `impl Mul for &Mat3` (matrix product, written as in the source). -/
def Mat3.mul (a b : Mat3) : Mat3 :=
  Matrix.of fun i j => a i 0 * b 0 j + a i 1 * b 1 j + a i 2 * b 2 j

/-- `impl Mul<&Vec3d> for &Mat3` (matrix–vector product). -/
def Mat3.mulVec (m : Mat3) (v : Vec3d) : Vec3d :=
  ⟨m 0 0 * v.x + m 0 1 * v.y + m 0 2 * v.z,
   m 1 0 * v.x + m 1 1 * v.y + m 1 2 * v.z,
   m 2 0 * v.x + m 2 1 * v.y + m 2 2 * v.z⟩

/-- The spec's Rodrigues matrix: `R = I + sin θ·[u]ₓ + (1−cos θ)·[u]ₓ²`,
where `[u]ₓ²` is the matrix square of the skew-symmetric cross-product
matrix.  This definition follows the specification's words and is compared
against `Mat3.rotation_matrix` above. -/
def rodriguesMatrix (u : Vec3d) (angle : ℝ) : Mat3 :=
  Matrix.of fun i j =>
    Mat3.identity i j
      + Real.sin (angle * (Real.pi / 180)) * skewMatrix u i j
      + (1 - Real.cos (angle * (Real.pi / 180))) *
        Mat3.mul (skewMatrix u) (skewMatrix u) i j

/-! ## utils.rs / object.rs: parameter range -/

/-- `Range<f64>` as used for ray-parameter ranges; `max` is `WithTop ℝ`
because `lib.rs` passes `f64::INFINITY` as the upper bound of shadow-ray
ranges. -/
structure TRange where
  min : ℝ
  max : WithTop ℝ

/-- `t` lies within the range: `t >= t_range.min && t <= t_range.max`. -/
def TRange.contains (tr : TRange) (t : ℝ) : Prop :=
  tr.min ≤ t ∧ (t : WithTop ℝ) ≤ tr.max

instance (tr : TRange) (t : ℝ) : Decidable (tr.contains t) :=
  inferInstanceAs (Decidable (_ ∧ _))

/-! ## object.rs and light.rs: materials, lights, the Object trait -/

/-- `Material` from `src/object.rs`. -/
inductive Material where
  | Matte : Material
  | Shiny (spclr_exp refl_rat : ℝ) : Material

/-- `LightSource` from `src/light.rs`. -/
inductive LightSource where
  | Ambient (intensity : ℝ) : LightSource
  | Point (intensity : ℝ) (pos : Vec3d) : LightSource
  | Directional (intensity : ℝ) (dir : Vec3d) : LightSource

/-- The `Object` trait of `src/object.rs`, embedded as a record of its
methods (a trait object). -/
structure Object where
  get_color : ℕ
  get_material : Material
  get_normal : Vec3d → Option Vec3d
  get_closest_intersection : Ray → TRange → Option ℝ

/-- The loop body of `closest_intersection`: scans the objects, keeping
`closest_t` (initially `t_range.max`, so possibly infinite) and
`closest_obj`, replacing them whenever a reported `t` is strictly below
the current `closest_t`. -/
def ciGo (ray : Ray) (t_range : TRange) :
    List Object → WithTop ℝ → Option Object → WithTop ℝ × Option Object
  | [], closest_t, closest_obj => (closest_t, closest_obj)
  | obj :: rest, closest_t, closest_obj =>
    match obj.get_closest_intersection ray t_range with
    | some step =>
      if (step : WithTop ℝ) < closest_t then ciGo ray t_range rest step (some obj)
      else ciGo ray t_range rest closest_t closest_obj
    | none => ciGo ray t_range rest closest_t closest_obj

/-- `closest_intersection` from `src/object.rs`.  When an object was kept,
`closest_t` is the (finite) `t` it reported; `untop'` extracts that real. -/
def closest_intersection (objs : List Object) (ray : Ray) (t_range : TRange) :
    Option (Object × Vec3d) :=
  match ciGo ray t_range objs t_range.max none with
  | (closest_t, some closest_obj) => some (closest_obj, ray.pointAt (closest_t.untop' 0))
  | (_, none) => none

/-! ## object.rs: Sphere -/

/-- `Sphere` from `src/object.rs`. -/
structure Sphere where
  center : Vec3d
  radius : ℝ
  color : ℕ
  material : Material

/-- `c_o = ray.origin() - self.center` in `Sphere::get_closest_intersection`. -/
def Sphere.co (s : Sphere) (ray : Ray) : Vec3d := ray.origin - s.center

/-- The quadratic coefficient `a = dir · dir`. -/
def Sphere.qa (_s : Sphere) (ray : Ray) : ℝ := ray.dir.dot ray.dir

/-- The quadratic coefficient `b = 2 (c_o · dir)`. -/
def Sphere.qb (s : Sphere) (ray : Ray) : ℝ := 2 * ((s.co ray).dot ray.dir)

/-- The quadratic coefficient `c = c_o · c_o - r²`. -/
def Sphere.qc (s : Sphere) (ray : Ray) : ℝ :=
  (s.co ray).dot (s.co ray) - s.radius * s.radius

/-- The discriminant `b² - 4ac`. -/
def Sphere.discnm (s : Sphere) (ray : Ray) : ℝ :=
  s.qb ray * s.qb ray - 4 * s.qa ray * s.qc ray

/-- The root `t1 = (-b + √discnm) / (2a)`. -/
def Sphere.t1 (s : Sphere) (ray : Ray) : ℝ :=
  (-s.qb ray + Real.sqrt (s.discnm ray)) / (2 * s.qa ray)

/-- The root `t2 = (-b - √discnm) / (2a)`. -/
def Sphere.t2 (s : Sphere) (ray : Ray) : ℝ :=
  (-s.qb ray - Real.sqrt (s.discnm ray)) / (2 * s.qa ray)

/-- `Sphere::get_closest_intersection` from `src/object.rs`. -/
def Sphere.get_closest_intersection (s : Sphere) (ray : Ray) (t_range : TRange) :
    Option ℝ :=
  if s.discnm ray < 0 then none
  else if t_range.contains (s.t1 ray) ∧ t_range.contains (s.t2 ray) then
    if s.t1 ray < s.t2 ray then some (s.t1 ray) else some (s.t2 ray)
  else if t_range.contains (s.t1 ray) then some (s.t1 ray)
  else if t_range.contains (s.t2 ray) then some (s.t2 ray)
  else none

/-- `Sphere::get_normal`. -/
def Sphere.get_normal (s : Sphere) (p : Vec3d) : Option Vec3d :=
  some ((p - s.center).normalize)

/-- `impl Object for Sphere`, packaged as a trait object. -/
def Sphere.toObject (s : Sphere) : Object :=
  { get_color := s.color
    get_material := s.material
    get_normal := s.get_normal
    get_closest_intersection := s.get_closest_intersection }

/-! ## object.rs: Triangle -/

/-- `Triangle` from `src/object.rs`. -/
structure Triangle where
  ps : Fin 3 → Vec3d
  color : ℕ
  material : Material

/-- Edge `e1 = ps[1] - ps[0]`. -/
def Triangle.e1 (t : Triangle) : Vec3d := t.ps 1 - t.ps 0

/-- Edge `e2 = ps[2] - ps[0]`. -/
def Triangle.e2 (t : Triangle) : Vec3d := t.ps 2 - t.ps 0

/-- `v_cross_e2 = dir × e2`. -/
def Triangle.vCrossE2 (t : Triangle) (ray : Ray) : Vec3d := ray.dir.cross t.e2

/-- `det = e1 · v_cross_e2`. -/
def Triangle.det (t : Triangle) (ray : Ray) : ℝ := t.e1.dot (t.vCrossE2 ray)

/-- `inv_det = 1 / det`. -/
def Triangle.invDet (t : Triangle) (ray : Ray) : ℝ := 1 / t.det ray

/-- `s = ray.origin() - ps[0]`. -/
def Triangle.sv (t : Triangle) (ray : Ray) : Vec3d := ray.origin - t.ps 0

/-- Barycentric coordinate `u = inv_det * (s · v_cross_e2)`. -/
def Triangle.u (t : Triangle) (ray : Ray) : ℝ :=
  t.invDet ray * ((t.sv ray).dot (t.vCrossE2 ray))

/-- `s_cross_e1 = s × e1`. -/
def Triangle.sCrossE1 (t : Triangle) (ray : Ray) : Vec3d := (t.sv ray).cross t.e1

/-- Barycentric coordinate `a = inv_det * (dir · s_cross_e1)` (the source
calls the second barycentric coordinate `a`). -/
def Triangle.av (t : Triangle) (ray : Ray) : ℝ :=
  t.invDet ray * (ray.dir.dot (t.sCrossE1 ray))

/-- `t = inv_det * (e2 · s_cross_e1)`. -/
def Triangle.tv (t : Triangle) (ray : Ray) : ℝ :=
  t.invDet ray * (t.e2.dot (t.sCrossE1 ray))

/-- `Triangle::get_closest_intersection` (Möller–Trumbore) from
`src/object.rs`. -/
def Triangle.get_closest_intersection (t : Triangle) (ray : Ray)
    (t_range : TRange) : Option ℝ :=
  if t.det ray > -EPSILON ∧ t.det ray < EPSILON then none
  else if t.u ray < 0 ∨ t.u ray > 1 then none
  else if t.av ray < 0 ∨ t.u ray + t.av ray > 1 then none
  else if t_range.contains (t.tv ray) then some (t.tv ray)
  else none

/-- `Triangle::get_normal`: the unit cross product of the edges, returned
only when a probe ray along it re-hits the triangle in a tight range. -/
def Triangle.get_normal (t : Triangle) (p : Vec3d) : Option Vec3d :=
  match t.get_closest_intersection (Ray.mk p ((t.e1.cross t.e2).normalize))
      ⟨-EPSILON * 1000000, ((EPSILON * 1000000 : ℝ) : WithTop ℝ)⟩ with
  | some _ => some ((t.e1.cross t.e2).normalize)
  | none => none

/-- `impl Object for Triangle`, packaged as a trait object. -/
def Triangle.toObject (t : Triangle) : Object :=
  { get_color := t.color
    get_material := t.material
    get_normal := t.get_normal
    get_closest_intersection := t.get_closest_intersection }

/-! ## color.rs -/

/-- `Color::r`. -/
def Color.r (c : ℕ) : ℕ := (c >>> 16) &&& 0xFF

/-- `Color::g`. -/
def Color.g (c : ℕ) : ℕ := (c >>> 8) &&& 0xFF

/-- `Color::b`. -/
def Color.b (c : ℕ) : ℕ := c &&& 0xFF

/-- Rust's `f64::clamp(0.0, 255.0)` followed by `as usize` (truncation,
which on `[0, 255]` is the floor). -/
def chan (v : ℝ) : ℕ := ⌊min (max v 0) 255⌋₊

/-- `Color::scale`. -/
def Color.scale (c : ℕ) (factor : ℝ) : ℕ :=
  (chan ((Color.r c : ℝ) * factor)) <<< 16
    ||| (chan ((Color.g c : ℝ) * factor)) <<< 8
    ||| chan ((Color.b c : ℝ) * factor)

/-- `Color::add`. -/
def Color.add (a b : ℕ) : ℕ :=
  (chan ((Color.r a : ℝ) + (Color.r b : ℝ))) <<< 16
    ||| (chan ((Color.g a : ℝ) + (Color.g b : ℝ))) <<< 8
    ||| chan ((Color.b a : ℝ) + (Color.b b : ℝ))

/-! ## lib.rs: Scene and the recursive shading function -/

/-- `Scene` from `src/lib.rs`. -/
structure Scene where
  camera_origin : Vec3d
  bg_col : ℕ
  lights : List LightSource
  objs : List Object

/-- The `Range { min: EPSILON * 1000000.0, max: INFINITY }` used for shadow
rays in `Scene::trace_ray`. -/
def shadowRange : TRange := ⟨EPSILON * 1000000, ⊤⟩

/-- The shadow test of `Scene::trace_ray`: whether the `continue` branch is
taken for a point or directional source (ambient sources are handled before
this test and never reach it). -/
def Scene.shadowed (s : Scene) (light : LightSource) (intxp : Vec3d) : Bool :=
  match light with
  | LightSource.Point _ pos =>
    match closest_intersection s.objs (Ray.mk intxp (pos - intxp)) shadowRange with
    | some (_, shdw_intxp) =>
      decide ((intxp - shdw_intxp).magnitude < (intxp - pos).magnitude)
    | none => false
  | LightSource.Directional _ dir =>
    (closest_intersection s.objs (Ray.mk intxp (dir.smul (-1))) shadowRange).isSome
  | LightSource.Ambient _ => false

/-- The accumulation of `direct_light_intensity` in `Scene::trace_ray`
(the `for light in self.lights.iter()` loop). -/
def Scene.direct_light_intensity (s : Scene) (obj : Object) (intxp : Vec3d)
    (ray : Ray) : ℝ :=
  s.lights.foldl (fun acc light =>
    match light with
    | LightSource.Ambient intensity => acc + intensity
    | _ =>
      let pr : Vec3d × ℝ :=
        match light with
        | LightSource.Point intensity pos => (pos - intxp, intensity)
        | LightSource.Directional intensity dir => (dir.smul (-1), intensity)
        | LightSource.Ambient _ => (⟨0, 0, 0⟩, 0)
      let intxp_light_dir := pr.1
      let light_intensity := pr.2
      if s.shadowed light intxp then acc
      else
        match obj.get_normal intxp with
        | none => acc
        | some norm₀ =>
          let norm := if norm₀.dot intxp_light_dir < 0 then norm₀.smul (-1) else norm₀
          let n_dot_il := norm.dot intxp_light_dir
          let acc₁ :=
            if n_dot_il > 0 then
              acc + light_intensity * n_dot_il /
                (norm.magnitude * intxp_light_dir.magnitude)
            else acc
          match obj.get_material with
          | Material.Shiny spclr_exp _ =>
            let intxp_light_refl_dir := intxp_light_dir.reflect norm
            let intxp_o_dir := ray.origin - intxp
            let ilr_dot_io := intxp_light_refl_dir.dot intxp_o_dir
            if ilr_dot_io > 0 then
              acc₁ + light_intensity *
                Real.rpow
                  (ilr_dot_io /
                    (intxp_light_refl_dir.magnitude * intxp_o_dir.magnitude))
                  spclr_exp
            else acc₁
          | Material.Matte => acc₁) 0

/-- `Scene::trace_ray` from `src/lib.rs`: nearest hit, direct lighting, and
for shiny materials a bounded recursive reflection blended by the
reflectivity ratio. -/
def Scene.trace_ray (s : Scene) (ray : Ray) (t_range : TRange)
    (ray_refl_limit : ℕ) : ℕ :=
  match closest_intersection s.objs ray t_range with
  | some (obj, intxp) =>
    let direct_color := Color.scale obj.get_color (s.direct_light_intensity obj intxp ray)
    match obj.get_material with
    | Material.Shiny _ refl_rat =>
      if h : ray_refl_limit = 0 ∨ refl_rat ≤ 0 then direct_color
      else
        match obj.get_normal intxp with
        | some norm₀ =>
          let norm := if norm₀.dot ray.dir < 0 then norm₀.smul (-1) else norm₀
          let refl_ray := Ray.mk intxp ((ray.dir.smul (-1)).reflect norm)
          let reflected_color :=
            s.trace_ray refl_ray ⟨EPSILON * 1000000, t_range.max⟩ (ray_refl_limit - 1)
          Color.add (Color.scale direct_color (1 - refl_rat))
            (Color.scale reflected_color refl_rat)
        | none => direct_color
    | Material.Matte => direct_color
  | none => s.bg_col
termination_by ray_refl_limit
decreasing_by
  rcases Nat.eq_zero_or_pos ray_refl_limit with h0 | h0
  · exact absurd (Or.inl h0) h
  · omega

/-! ## lib.rs: Camera -/

/-- `Camera` from `src/lib.rs`. -/
structure Camera where
  origin : Vec3d
  vp_width : ℝ
  vp_height : ℝ
  vp_depth : ℤ
  y_rot : ℝ
  x_rot : ℝ
  rot_m : Mat3

/-- `Camera::new`: viewport height 1, width `height * aspect_ratio`, depth
`-1`, rotations zero, identity rotation matrix. -/
def Camera.new (origin : Vec3d) (aspect_ratio : ℝ) : Camera :=
  { origin := origin
    vp_width := 1 * aspect_ratio
    vp_height := 1
    vp_depth := -1
    y_rot := 0
    x_rot := 0
    rot_m := Mat3.identity }

/-- The keys `Renderer::update_camera` reacts to (`Other` stands for any
key hitting the `_ => {}` arm). -/
inductive Key where
  | A | D | W | S | KLeft | KRight | KUp | KDown | Other

/-- One iteration of the key loop in `Renderer::update_camera`
(speeds: move 0.3, yaw 5.0, pitch 3.0). -/
def Camera.key_step (camera : Camera) (key : Key) : Camera :=
  match key with
  | Key.A =>
    let step := ((camera.rot_m.mulVec ⟨-1, 0, 0⟩).normalize).smul 0.3
    { camera with origin := camera.origin + ⟨step.x, 0, step.z⟩ }
  | Key.D =>
    let step := ((camera.rot_m.mulVec ⟨1, 0, 0⟩).normalize).smul 0.3
    { camera with origin := camera.origin + ⟨step.x, 0, step.z⟩ }
  | Key.W =>
    let step := ((camera.rot_m.mulVec ⟨0, 0, -1⟩).normalize).smul 0.3
    { camera with origin := camera.origin + ⟨step.x, 0, step.z⟩ }
  | Key.S =>
    let step := ((camera.rot_m.mulVec ⟨0, 0, 1⟩).normalize).smul 0.3
    { camera with origin := camera.origin + ⟨step.x, 0, step.z⟩ }
  | Key.KLeft => { camera with y_rot := camera.y_rot + 5 }
  | Key.KRight => { camera with y_rot := camera.y_rot - 5 }
  | Key.KUp => { camera with x_rot := min (camera.x_rot + 3) 89 }
  | Key.KDown => { camera with x_rot := max (camera.x_rot - 3) (-35) }
  | Key.Other => camera

/-- `Renderer::update_camera`: apply every pressed key, then rebuild the
rotation matrix from scratch as pitch (about the yaw-rotated x-axis)
composed with yaw. -/
def Renderer.update_camera (camera : Camera) (keys : List Key) : Camera :=
  let camera := keys.foldl Camera.key_step camera
  let y_rot_matrix := Mat3.rotation_y camera.y_rot
  let x_rot_matrix := Mat3.rotation_matrix (y_rot_matrix.mulVec ⟨1, 0, 0⟩) camera.x_rot
  { camera with rot_m := x_rot_matrix.mul y_rot_matrix }

/-! ## lib.rs: per-pixel sampling in Renderer::trace_rays -/

/-- The per-pixel body of the worker loop in `Renderer::trace_rays`
(lines computing `thread_buffer[row][col]`): for each sample draw jitter
from the generator (only when more than one sample is taken), rotate the
precomputed ray, trace it with reflection limit 2, and average the channel
sums.  The random generator is modelled as the stream `rng` of successive
`random::<f64>()` draws. -/
def sample_pixel (scene : Scene) (camera : Camera) (ray : Ray)
    (num_samples : ℕ) (rng : ℕ → ℝ) : ℕ :=
  let totals := (List.range num_samples).foldl
    (fun (tc : ℕ × ℕ × ℕ) i =>
      let jitter_x : ℝ := if 1 < num_samples then rng (2 * i) - 0.5 else 0
      let jitter_y : ℝ := if 1 < num_samples then rng (2 * i + 1) - 0.5 else 0
      let transformed_ray := Ray.mk camera.origin
        (camera.rot_m.mulVec (ray.dir + (Vec3d.mk jitter_x jitter_y 0).smul 0.0005))
      let color := scene.trace_ray transformed_ray
        ⟨((|camera.vp_depth| : ℤ) : ℝ), ((100 : ℝ) : WithTop ℝ)⟩ 2
      (tc.1 + Color.r color, tc.2.1 + Color.g color, tc.2.2 + Color.b color))
    (0, 0, 0)
  (min (totals.1 / num_samples) 255) <<< 16
    ||| (min (totals.2.1 / num_samples) 255) <<< 8
    ||| min (totals.2.2 / num_samples) 255

/-! ## lib.rs: Renderer construction -/

/-- `screen_height = (screen_width as f64 / aspect_ratio) as usize`
(`as usize` truncates and saturates below at zero, which is `Nat.floor`). -/
def screenHeight (screen_width : ℕ) (aspect_ratio : ℝ) : ℕ :=
  ⌊(screen_width : ℝ) / aspect_ratio⌋₊

/-- The dimensions `Canvas::new` derives. -/
structure RendererCfg where
  canvas_width : ℕ
  canvas_height : ℕ

/-- The configuration-validating prelude of `Renderer::new`: the panic
`Window dimensions must be a multiple of pixel size` is modelled as `none`;
otherwise the canvas dimensions are derived as in `Canvas::new`.  The
window, threads and ray grid built afterwards are external state and not
needed by any claim. -/
def Renderer.new (screen_width : ℕ) (aspect_ratio : ℝ) (canvas_unit_size : ℕ) :
    Option RendererCfg :=
  if screen_width % canvas_unit_size ≠ 0 ∨
      screenHeight screen_width aspect_ratio % canvas_unit_size ≠ 0 then none
  else some ⟨screen_width / canvas_unit_size,
             screenHeight screen_width aspect_ratio / canvas_unit_size⟩

/-! ## Concrete instances used in witnesses and counterexamples -/

/-- The ray with origin `(0,0,0)` and direction `(0,0,-1)`. -/
def ray00 : Ray := ⟨⟨0, 0, 0⟩, ⟨0, 0, -1⟩⟩

/-- The ray with origin `(0.1, 0.1, 0)` and direction `(0,0,-1)`. -/
def ray1 : Ray := ⟨⟨1 / 10, 1 / 10, 0⟩, ⟨0, 0, -1⟩⟩

/-- The parameter range `[0, 100]`. -/
def trMain : TRange := ⟨0, ((100 : ℝ) : WithTop ℝ)⟩

/-- The parameter range `[0, 4]`. -/
def trCap : TRange := ⟨0, ((4 : ℝ) : WithTop ℝ)⟩

/-- A matte sphere centred at `(0,0,-5)` with radius 1. -/
def sphereA : Sphere := ⟨⟨0, 0, -5⟩, 1, 0xFF0000, Material.Matte⟩

/-- A matte sphere centred at `(0,0,-6)` with radius 1; it overlaps
`sphereA` (their surfaces along `ray00` overlap for `t ∈ [5,6]`). -/
def sphereB : Sphere := ⟨⟨0, 0, -6⟩, 1, 0x0000FF, Material.Matte⟩

/-- A sphere off to the side of `ray00`: the discriminant is negative. -/
def sphereD : Sphere := ⟨⟨5, 0, 0⟩, 1, 0, Material.Matte⟩

/-- A shiny sphere centred at `(0,0,-5)` with radius 1 and reflectivity
`1/2`. -/
def sphereS : Sphere := ⟨⟨0, 0, -5⟩, 1, 0xFF0000, Material.Shiny 1 (1 / 2)⟩

/-- The triangle `(0,0,-5), (1,0,-5), (0,1,-5)`. -/
def tri0 : Triangle :=
  ⟨![⟨0, 0, -5⟩, ⟨1, 0, -5⟩, ⟨0, 1, -5⟩], 0, Material.Matte⟩

/-- A scene holding only `sphereS`, with no lights. -/
def scene0 : Scene := ⟨⟨0, 0, 0⟩, 0, [], [sphereS.toObject]⟩

/-- A stub object whose intersection query always reports `t = 2`. -/
def objP : Object := ⟨0, Material.Matte, fun _ => none, fun _ _ => some 2⟩

/-- A second stub object whose intersection query always reports `t = 2`. -/
def objQ : Object := ⟨1, Material.Matte, fun _ => none, fun _ _ => some 2⟩

/-! ## Helper lemmas -/

theorem Vec3d.add_def (a b : Vec3d) :
    a + b = ⟨a.x + b.x, a.y + b.y, a.z + b.z⟩ := rfl

theorem Vec3d.sub_def (a b : Vec3d) :
    a - b = ⟨a.x - b.x, a.y - b.y, a.z - b.z⟩ := rfl

theorem sqrt_four : Real.sqrt 4 = 2 := by
  rw [show (4 : ℝ) = 2 ^ 2 by norm_num, Real.sqrt_sq (by norm_num : (0 : ℝ) ≤ 2)]

theorem magnitude_zero : (Vec3d.mk 0 0 0).magnitude = 0 := by
  simp [Vec3d.magnitude]

/-- C6: `Vec3d::normalize` maps the zero vector to the zero vector, and
every nonzero vector to a vector of magnitude exactly 1 (hence ≈ 1). -/
theorem normalize_spec :
    (Vec3d.normalize ⟨0, 0, 0⟩ = ⟨0, 0, 0⟩) ∧
    ∀ v : Vec3d, v ≠ ⟨0, 0, 0⟩ → (v.normalize).magnitude = 1 := by
  constructor
  · rw [Vec3d.normalize, if_neg]
    simp [magnitude_zero]
  · intro v hv
    have hS : 0 < v.x * v.x + v.y * v.y + v.z * v.z := by
      by_contra hle
      push_neg at hle
      have hx : v.x = 0 := by nlinarith [mul_self_nonneg v.x, mul_self_nonneg v.y, mul_self_nonneg v.z]
      have hy : v.y = 0 := by nlinarith [mul_self_nonneg v.x, mul_self_nonneg v.y, mul_self_nonneg v.z]
      have hz : v.z = 0 := by nlinarith [mul_self_nonneg v.x, mul_self_nonneg v.y, mul_self_nonneg v.z]
      apply hv
      cases v
      rw [Vec3d.mk.injEq]
      exact ⟨hx, hy, hz⟩
    have hm : 0 < v.magnitude := Real.sqrt_pos.2 hS
    have hmm : v.magnitude * v.magnitude = v.x * v.x + v.y * v.y + v.z * v.z :=
      Real.mul_self_sqrt hS.le
    rw [Vec3d.normalize, if_pos (ne_of_gt hm)]
    rw [Vec3d.magnitude, Vec3d.smul]
    have harg : v.x * (1 / v.magnitude) * (v.x * (1 / v.magnitude))
        + v.y * (1 / v.magnitude) * (v.y * (1 / v.magnitude))
        + v.z * (1 / v.magnitude) * (v.z * (1 / v.magnitude)) = 1 := by
      field_simp
      linarith [hmm]
    rw [harg, Real.sqrt_one]

/-- Witness for C6 at the concrete vector `(3,4,0)`. -/
theorem normalize_spec_witness :
    (Vec3d.mk 3 4 0 ≠ ⟨0, 0, 0⟩) ∧ (Vec3d.normalize ⟨3, 4, 0⟩).magnitude = 1 := by
  have hne : Vec3d.mk 3 4 0 ≠ ⟨0, 0, 0⟩ := by
    intro h
    have := congrArg Vec3d.x h
    norm_num at this
  exact ⟨hne, normalize_spec.2 ⟨3, 4, 0⟩ hne⟩

/-- C10: `Sphere::get_normal` always returns `Some` of the normalized
offset from the centre; at the centre itself that is the zero vector,
whose magnitude is 0, not 1. -/
theorem sphere_get_normal_total (s : Sphere) (p : Vec3d) :
    s.get_normal p = some ((p - s.center).normalize) ∧
    s.get_normal s.center = some (⟨0, 0, 0⟩ : Vec3d) ∧
    (Vec3d.mk 0 0 0).magnitude = 0 ∧ (Vec3d.mk 0 0 0).magnitude ≠ 1 := by
  refine ⟨rfl, ?_, magnitude_zero, by rw [magnitude_zero]; norm_num⟩
  rw [Sphere.get_normal]
  have h0 : s.center - s.center = Vec3d.mk 0 0 0 := by
    rw [Vec3d.sub_def]; norm_num
  rw [h0, Vec3d.normalize, if_neg]
  simp [magnitude_zero]

/-- C7: with a sample count of 1 the jitter terms are zero and the pixel
value does not depend on the random stream: any two streams give
bit-identical results. -/
theorem sample_pixel_rng_independent (scene : Scene) (camera : Camera)
    (ray : Ray) (rng₁ rng₂ : ℕ → ℝ) :
    sample_pixel scene camera ray 1 rng₁ = sample_pixel scene camera ray 1 rng₂ := by
  simp [sample_pixel]

/-- C9: the `Renderer::new` validation aborts (returns `none`) exactly when
the pixel block size fails to divide the screen width or the derived screen
height; when both divide evenly it succeeds with the canvas dimensions. -/
theorem renderer_new_config_error_iff (screen_width : ℕ) (aspect_ratio : ℝ)
    (canvas_unit_size : ℕ) :
    (Renderer.new screen_width aspect_ratio canvas_unit_size = none ↔
      (screen_width % canvas_unit_size ≠ 0 ∨
        screenHeight screen_width aspect_ratio % canvas_unit_size ≠ 0)) ∧
    (screen_width % canvas_unit_size = 0 ∧
        screenHeight screen_width aspect_ratio % canvas_unit_size = 0 →
      Renderer.new screen_width aspect_ratio canvas_unit_size =
        some ⟨screen_width / canvas_unit_size,
              screenHeight screen_width aspect_ratio / canvas_unit_size⟩) := by
  constructor
  · rw [Renderer.new]
    split_ifs with h
    · simpa using h
    · simpa using h
  · intro h
    rw [Renderer.new, if_neg]
    simp [h.1, h.2]

theorem key_step_x_rot_bounds (cam : Camera) (k : Key)
    (h : -35 ≤ cam.x_rot ∧ cam.x_rot ≤ 89) :
    -35 ≤ (cam.key_step k).x_rot ∧ (cam.key_step k).x_rot ≤ 89 := by
  cases k <;> simp only [Camera.key_step] <;>
    first
      | exact h
      | (constructor
         · exact le_min (by linarith [h.1]) (by norm_num)
         · exact min_le_right _ _)
      | (constructor
         · exact le_max_right _ _
         · exact max_le (by linarith [h.2]) (by norm_num))

theorem foldl_key_step_x_rot_bounds :
    ∀ (keys : List Key) (cam : Camera),
      -35 ≤ cam.x_rot ∧ cam.x_rot ≤ 89 →
      -35 ≤ (keys.foldl Camera.key_step cam).x_rot ∧
        (keys.foldl Camera.key_step cam).x_rot ≤ 89 := by
  intro keys
  induction keys with
  | nil => intro cam h; simpa using h
  | cons k rest ih =>
    intro cam h
    simpa using ih (cam.key_step k) (key_step_x_rot_bounds cam k h)

theorem update_camera_x_rot_bounds (cam : Camera) (keys : List Key)
    (h : -35 ≤ cam.x_rot ∧ cam.x_rot ≤ 89) :
    -35 ≤ (Renderer.update_camera cam keys).x_rot ∧
      (Renderer.update_camera cam keys).x_rot ≤ 89 := by
  simpa [Renderer.update_camera] using foldl_key_step_x_rot_bounds keys cam h

theorem foldl_update_camera_x_rot_bounds :
    ∀ (kss : List (List Key)) (cam : Camera),
      -35 ≤ cam.x_rot ∧ cam.x_rot ≤ 89 →
      -35 ≤ (kss.foldl Renderer.update_camera cam).x_rot ∧
        (kss.foldl Renderer.update_camera cam).x_rot ≤ 89 := by
  intro kss
  induction kss with
  | nil => intro cam h; simpa using h
  | cons ks rest ih =>
    intro cam h
    simpa using ih (Renderer.update_camera cam ks) (update_camera_x_rot_bounds cam ks h)

/-- C8: the pitch starts at 0; an Up update caps it at 89 and a Down update
floors it at -35; and after any sequence of camera updates with any key
combinations the pitch stays within `[-35, 89]`. -/
theorem camera_pitch_clamped (origin : Vec3d) (aspect_ratio : ℝ)
    (kss : List (List Key)) :
    (Camera.new origin aspect_ratio).x_rot = 0 ∧
    (∀ cam : Camera, (cam.key_step Key.KUp).x_rot = min (cam.x_rot + 3) 89 ∧
        (cam.key_step Key.KDown).x_rot = max (cam.x_rot - 3) (-35)) ∧
    -35 ≤ (kss.foldl Renderer.update_camera (Camera.new origin aspect_ratio)).x_rot ∧
    (kss.foldl Renderer.update_camera (Camera.new origin aspect_ratio)).x_rot ≤ 89 := by
  refine ⟨rfl, fun cam => ⟨rfl, rfl⟩, ?_⟩
  exact foldl_update_camera_x_rot_bounds kss (Camera.new origin aspect_ratio)
    (by constructor <;> norm_num [Camera.new])

/-- C1: the source's `Mat3::rotation_matrix` does not satisfy Rodrigues'
formula.  For the unit axis `(1,0,0)` and angle 90° the code produces 2 in
the top-left entry while `I + sin θ·[u]ₓ + (1−cos θ)·[u]ₓ²` gives 1: the
code's `u_skew_squared` is not the square of the skew matrix (its diagonal
is `x²+y²+z²` and its off-diagonals already mix `sin`/`1−cos` factors that
are then scaled by `1−cos` a second time), contradicting the comment
`Apply Rodrigues' formula` in the source. -/
theorem rotation_matrix_entry_mismatch :
    Mat3.rotation_matrix ⟨1, 0, 0⟩ 90 0 0 = 2 ∧
    rodriguesMatrix ⟨1, 0, 0⟩ 90 0 0 = 1 := by
  have hrad : (90 : ℝ) * (Real.pi / 180) = Real.pi / 2 := by ring
  constructor <;>
    simp [Mat3.rotation_matrix, rodriguesMatrix, skewMatrix, Mat3.identity,
      Mat3.mul, hrad, Real.cos_pi_div_two, Real.sin_pi_div_two,
      Matrix.cons_val_zero, Matrix.cons_val_one, Matrix.head_cons] <;>
    norm_num

theorem ciGo_fst_le (ray : Ray) (tr : TRange) :
    ∀ (l : List Object) (b : WithTop ℝ) (best : Option Object),
      (ciGo ray tr l b best).1 ≤ b := by
  intro l
  induction l with
  | nil => intro b best; simp [ciGo]
  | cons o rest ih =>
    intro b best
    cases h : o.get_closest_intersection ray tr with
    | none => simp only [ciGo, h]; exact ih b best
    | some step =>
      by_cases hlt : (step : WithTop ℝ) < b
      · simp only [ciGo, h, if_pos hlt]
        exact le_of_lt (lt_of_le_of_lt (ih step (some o)) hlt)
      · simp only [ciGo, h, if_neg hlt]
        exact ih b best

theorem ciGo_fst_le_hit (ray : Ray) (tr : TRange) :
    ∀ (l : List Object) (b : WithTop ℝ) (best : Option Object) (o : Object) (t : ℝ),
      o ∈ l → o.get_closest_intersection ray tr = some t →
      (ciGo ray tr l b best).1 ≤ (t : WithTop ℝ) := by
  intro l
  induction l with
  | nil => intro b best o t hmem; exact absurd hmem (List.not_mem_nil o)
  | cons o' rest ih =>
    intro b best o t hmem hhit
    rcases List.mem_cons.1 hmem with heq | hmem'
    · subst heq
      by_cases hlt : (t : WithTop ℝ) < b
      · simp only [ciGo, hhit, if_pos hlt]
        exact ciGo_fst_le ray tr rest t (some o)
      · simp only [ciGo, hhit, if_neg hlt]
        exact le_trans (ciGo_fst_le ray tr rest b best) (not_lt.1 hlt)
    · cases h : o'.get_closest_intersection ray tr with
      | none => simp only [ciGo, h]; exact ih b best o t hmem' hhit
      | some step =>
        by_cases hlt : (step : WithTop ℝ) < b
        · simp only [ciGo, h, if_pos hlt]
          exact ih step (some o') o t hmem' hhit
        · simp only [ciGo, h, if_neg hlt]
          exact ih b best o t hmem' hhit

theorem ciGo_cases (ray : Ray) (tr : TRange) :
    ∀ (l : List Object) (b : WithTop ℝ) (best : Option Object),
      ciGo ray tr l b best = (b, best) ∨
      ∃ o, o ∈ l ∧ ∃ t : ℝ, o.get_closest_intersection ray tr = some t ∧
        (t : WithTop ℝ) < b ∧ ciGo ray tr l b best = ((t : WithTop ℝ), some o) := by
  intro l
  induction l with
  | nil => intro b best; exact Or.inl rfl
  | cons o' rest ih =>
    intro b best
    cases h : o'.get_closest_intersection ray tr with
    | none =>
      simp only [ciGo, h]
      rcases ih b best with h1 | ⟨o, hmem, t, hhit, hlt, heq⟩
      · exact Or.inl h1
      · exact Or.inr ⟨o, List.mem_cons_of_mem o' hmem, t, hhit, hlt, heq⟩
    | some step =>
      by_cases hlt : (step : WithTop ℝ) < b
      · simp only [ciGo, h, if_pos hlt]
        rcases ih step (some o') with h1 | ⟨o, hmem, t, hhit, hlt', heq⟩
        · exact Or.inr ⟨o', List.mem_cons_self o' rest, step, h, hlt, h1⟩
        · exact Or.inr ⟨o, List.mem_cons_of_mem o' hmem, t, hhit, lt_trans hlt' hlt, heq⟩
      · simp only [ciGo, h, if_neg hlt]
        rcases ih b best with h1 | ⟨o, hmem, t, hhit, hlt', heq⟩
        · exact Or.inl h1
        · exact Or.inr ⟨o, List.mem_cons_of_mem o' hmem, t, hhit, hlt', heq⟩

theorem ciGo_snd_none_iff (ray : Ray) (tr : TRange) :
    ∀ (l : List Object) (b : WithTop ℝ) (best : Option Object),
      (ciGo ray tr l b best).2 = none ↔
        best = none ∧ ∀ o ∈ l, ∀ t : ℝ,
          o.get_closest_intersection ray tr = some t → b ≤ (t : WithTop ℝ) := by
  intro l
  induction l with
  | nil =>
    intro b best
    simp [ciGo]
  | cons o' rest ih =>
    intro b best
    cases h : o'.get_closest_intersection ray tr with
    | none =>
      simp only [ciGo, h]
      rw [ih b best]
      constructor
      · rintro ⟨hb, hall⟩
        refine ⟨hb, ?_⟩
        intro o hmem t hhit
        rcases List.mem_cons.1 hmem with heq | hmem'
        · subst heq; rw [h] at hhit; exact absurd hhit (by simp)
        · exact hall o hmem' t hhit
      · rintro ⟨hb, hall⟩
        exact ⟨hb, fun o hmem t hhit => hall o (List.mem_cons_of_mem o' hmem) t hhit⟩
    | some step =>
      by_cases hlt : (step : WithTop ℝ) < b
      · simp only [ciGo, h, if_pos hlt]
        rw [ih step (some o')]
        constructor
        · rintro ⟨hb, _⟩; exact absurd hb (by simp)
        · rintro ⟨_, hall⟩
          have := hall o' (List.mem_cons_self o' rest) step h
          exact absurd this (not_le.2 hlt)
      · simp only [ciGo, h, if_neg hlt]
        rw [ih b best]
        constructor
        · rintro ⟨hb, hall⟩
          refine ⟨hb, ?_⟩
          intro o hmem t hhit
          rcases List.mem_cons.1 hmem with heq | hmem'
          · subst heq
            rw [h] at hhit
            cases hhit
            exact not_lt.1 hlt
          · exact hall o hmem' t hhit
        · rintro ⟨hb, hall⟩
          exact ⟨hb, fun o hmem t hhit => hall o (List.mem_cons_of_mem o' hmem) t hhit⟩

theorem sphere5_disc (col : ℕ) (mat : Material) :
    (Sphere.mk ⟨0, 0, -5⟩ 1 col mat).discnm ray00 = 4 := by
  norm_num [Sphere.discnm, Sphere.qa, Sphere.qb, Sphere.qc, Sphere.co,
    Vec3d.dot, Vec3d.sub_def, ray00]

theorem sphere5_t1 (col : ℕ) (mat : Material) :
    (Sphere.mk ⟨0, 0, -5⟩ 1 col mat).t1 ray00 = 6 := by
  rw [Sphere.t1, sphere5_disc col mat, sqrt_four]
  norm_num [Sphere.qa, Sphere.qb, Sphere.co, Vec3d.dot, Vec3d.sub_def, ray00]

theorem sphere5_t2 (col : ℕ) (mat : Material) :
    (Sphere.mk ⟨0, 0, -5⟩ 1 col mat).t2 ray00 = 4 := by
  rw [Sphere.t2, sphere5_disc col mat, sqrt_four]
  norm_num [Sphere.qa, Sphere.qb, Sphere.co, Vec3d.dot, Vec3d.sub_def, ray00]

theorem trMain_contains (t : ℝ) (h0 : 0 ≤ t) (h100 : t ≤ 100) :
    trMain.contains t := by
  constructor
  · show (0 : ℝ) ≤ t
    exact h0
  · show ((t : ℝ) : WithTop ℝ) ≤ ((100 : ℝ) : WithTop ℝ)
    exact WithTop.coe_le_coe.2 h100

theorem sphere5_hit (col : ℕ) (mat : Material) :
    (Sphere.mk ⟨0, 0, -5⟩ 1 col mat).get_closest_intersection ray00 trMain = some 4 := by
  rw [Sphere.get_closest_intersection, sphere5_disc col mat, sphere5_t1 col mat,
    sphere5_t2 col mat, if_neg (by norm_num),
    if_pos ⟨trMain_contains 6 (by norm_num) (by norm_num),
            trMain_contains 4 (by norm_num) (by norm_num)⟩,
    if_neg (by norm_num : ¬ (6 : ℝ) < 4)]

theorem sphere5_hit_cap (col : ℕ) (mat : Material) :
    (Sphere.mk ⟨0, 0, -5⟩ 1 col mat).get_closest_intersection ray00 trCap = some 4 := by
  have hnc6 : ¬ trCap.contains 6 := by
    rintro ⟨-, h⟩
    have : (6 : ℝ) ≤ 4 :=
      WithTop.coe_le_coe.1 (h.trans_eq (rfl : trCap.max = ((4 : ℝ) : WithTop ℝ)))
    norm_num at this
  have hc4 : trCap.contains 4 := by
    constructor
    · show (0 : ℝ) ≤ 4
      norm_num
    · show ((4 : ℝ) : WithTop ℝ) ≤ ((4 : ℝ) : WithTop ℝ)
      exact le_refl _
  rw [Sphere.get_closest_intersection, sphere5_disc col mat, sphere5_t1 col mat,
    sphere5_t2 col mat, if_neg (by norm_num), if_neg (fun hc => hnc6 hc.1),
    if_neg hnc6, if_pos hc4]

theorem sphere6_disc (col : ℕ) (mat : Material) :
    (Sphere.mk ⟨0, 0, -6⟩ 1 col mat).discnm ray00 = 4 := by
  norm_num [Sphere.discnm, Sphere.qa, Sphere.qb, Sphere.qc, Sphere.co,
    Vec3d.dot, Vec3d.sub_def, ray00]

theorem sphere6_t1 (col : ℕ) (mat : Material) :
    (Sphere.mk ⟨0, 0, -6⟩ 1 col mat).t1 ray00 = 7 := by
  rw [Sphere.t1, sphere6_disc col mat, sqrt_four]
  norm_num [Sphere.qa, Sphere.qb, Sphere.co, Vec3d.dot, Vec3d.sub_def, ray00]

theorem sphere6_t2 (col : ℕ) (mat : Material) :
    (Sphere.mk ⟨0, 0, -6⟩ 1 col mat).t2 ray00 = 5 := by
  rw [Sphere.t2, sphere6_disc col mat, sqrt_four]
  norm_num [Sphere.qa, Sphere.qb, Sphere.co, Vec3d.dot, Vec3d.sub_def, ray00]

theorem sphere6_hit (col : ℕ) (mat : Material) :
    (Sphere.mk ⟨0, 0, -6⟩ 1 col mat).get_closest_intersection ray00 trMain = some 5 := by
  rw [Sphere.get_closest_intersection, sphere6_disc col mat, sphere6_t1 col mat,
    sphere6_t2 col mat, if_neg (by norm_num),
    if_pos ⟨trMain_contains 7 (by norm_num) (by norm_num),
            trMain_contains 5 (by norm_num) (by norm_num)⟩,
    if_neg (by norm_num : ¬ (7 : ℝ) < 5)]

theorem closest_intersection_eq_none_iff_snd (objs : List Object) (ray : Ray)
    (tr : TRange) :
    closest_intersection objs ray tr = none ↔
      (ciGo ray tr objs tr.max none).2 = none := by
  rw [closest_intersection]
  rcases ciGo ray tr objs tr.max none with ⟨ct, co⟩
  cases co <;> simp

/-- C2 counterexample: a single sphere whose nearest in-range root equals
`t_range.max` exactly.  The object reports a hit (`some 4`), yet
`closest_intersection` returns `none` because its bound starts at
`t_range.max` and only strictly smaller `t` values are kept — so "None if
no object reports a hit" fails as stated. -/
theorem closest_intersection_drops_boundary_hit :
    sphereA.toObject.get_closest_intersection ray00 trCap = some 4 ∧
    closest_intersection [sphereA.toObject] ray00 trCap = none := by
  have hhit : sphereA.toObject.get_closest_intersection ray00 trCap = some 4 :=
    sphere5_hit_cap 0xFF0000 Material.Matte
  refine ⟨hhit, ?_⟩
  have hn : ¬ ((4 : ℝ) : WithTop ℝ) < trCap.max :=
    lt_irrefl ((4 : ℝ) : WithTop ℝ)
  simp only [closest_intersection, ciGo, hhit]
  rw [if_neg hn]

/-- C2 (amended): `closest_intersection` initializes its bound to
`t_range.max` and keeps the strictly smallest reported `t` (earlier-scanned
object wins ties); it returns `none` iff no object reports a `t` strictly
below `t_range.max`, and otherwise `Some (object, ray.at t)` for the
minimal such `t`; over the two overlapping spheres it returns the nearer
surface. -/
theorem closest_intersection_characterization :
    (∀ (objs : List Object) (ray : Ray) (tr : TRange),
      closest_intersection objs ray tr = none ↔
        ∀ o ∈ objs, ∀ t : ℝ, o.get_closest_intersection ray tr = some t →
          tr.max ≤ (t : WithTop ℝ)) ∧
    (∀ (objs : List Object) (ray : Ray) (tr : TRange) (o : Object) (p : Vec3d),
      closest_intersection objs ray tr = some (o, p) →
        o ∈ objs ∧ ∃ t : ℝ, o.get_closest_intersection ray tr = some t ∧
          (t : WithTop ℝ) < tr.max ∧ p = ray.pointAt t ∧
          ∀ o' ∈ objs, ∀ u : ℝ,
            o'.get_closest_intersection ray tr = some u → t ≤ u) ∧
    (∀ (o₁ o₂ : Object) (ray : Ray) (tr : TRange) (t : ℝ),
      o₁.get_closest_intersection ray tr = some t →
      o₂.get_closest_intersection ray tr = some t →
      (t : WithTop ℝ) < tr.max →
      closest_intersection [o₁, o₂] ray tr = some (o₁, ray.pointAt t)) ∧
    closest_intersection [sphereA.toObject, sphereB.toObject] ray00 trMain =
      some (sphereA.toObject, ⟨0, 0, -4⟩) := by
  refine ⟨?_, ?_, ?_, ?_⟩
  · intro objs ray tr
    rw [closest_intersection_eq_none_iff_snd, ciGo_snd_none_iff]
    simp
  · intro objs ray tr o p h
    rcases ciGo_cases ray tr objs tr.max none with hgo | ⟨o', hmem, t, hhit, hlt, hgo⟩
    · rw [closest_intersection, hgo] at h
      simp at h
    · rw [closest_intersection, hgo] at h
      simp only [WithTop.untop'_coe, Option.some.injEq, Prod.mk.injEq] at h
      obtain ⟨ho, hp⟩ := h
      subst ho
      refine ⟨hmem, t, hhit, hlt, hp.symm, ?_⟩
      intro o'' hmem'' u hhit''
      have hle := ciGo_fst_le_hit ray tr objs tr.max none o'' u hmem'' hhit''
      rw [hgo] at hle
      exact WithTop.coe_le_coe.1 hle
  · intro o₁ o₂ ray tr t h1 h2 hlt
    simp [closest_intersection, ciGo, h1, h2, hlt, lt_irrefl, WithTop.untop'_coe]
  · have hA : sphereA.toObject.get_closest_intersection ray00 trMain = some 4 :=
      sphere5_hit 0xFF0000 Material.Matte
    have hB : sphereB.toObject.get_closest_intersection ray00 trMain = some 5 :=
      sphere6_hit 0x0000FF Material.Matte
    have h4 : ((4 : ℝ) : WithTop ℝ) < trMain.max := WithTop.coe_lt_coe.2 (by norm_num)
    have h5 : ¬ ((5 : ℝ) : WithTop ℝ) < ((4 : ℝ) : WithTop ℝ) := by
      rw [WithTop.coe_lt_coe]
      norm_num
    simp only [closest_intersection, ciGo, hA, hB, if_pos h4, if_neg h5,
      WithTop.untop'_coe]
    norm_num [Ray.pointAt, ray00, Vec3d.add_def, Vec3d.smul]

/-- Witness for C2: two stub objects reporting the same `t = 2`; the
earlier-scanned one is returned. -/
theorem closest_intersection_characterization_witness :
    closest_intersection [objP, objQ] ray00 trMain = some (objP, ray00.pointAt 2) :=
  closest_intersection_characterization.2.2.1 objP objQ ray00 trMain 2 rfl rfl
    (show ((2 : ℝ) : WithTop ℝ) < ((100 : ℝ) : WithTop ℝ) from
      WithTop.coe_lt_coe.2 (by norm_num))

/-- C3: `Sphere::get_closest_intersection` returns `none` on a negative
discriminant; otherwise the smaller root when both lie in range, the single
in-range root when only one does, and `none` when neither does; and on the
spec's concrete example (sphere at `(0,0,-5)`, radius 1, ray from the
origin along `(0,0,-1)`, range `[0,100]`) it returns `t = 4`. -/
theorem sphere_intersection_spec (s : Sphere) (ray : Ray) (tr : TRange) :
    (s.discnm ray < 0 → s.get_closest_intersection ray tr = none) ∧
    (0 ≤ s.discnm ray →
      ((tr.contains (s.t1 ray) ∧ tr.contains (s.t2 ray)) →
        s.get_closest_intersection ray tr = some (min (s.t1 ray) (s.t2 ray))) ∧
      ((tr.contains (s.t1 ray) ∧ ¬ tr.contains (s.t2 ray)) →
        s.get_closest_intersection ray tr = some (s.t1 ray)) ∧
      ((¬ tr.contains (s.t1 ray) ∧ tr.contains (s.t2 ray)) →
        s.get_closest_intersection ray tr = some (s.t2 ray)) ∧
      ((¬ tr.contains (s.t1 ray) ∧ ¬ tr.contains (s.t2 ray)) →
        s.get_closest_intersection ray tr = none)) ∧
    (Sphere.mk ⟨0, 0, -5⟩ 1 0 Material.Matte).get_closest_intersection ray00 trMain =
      some 4 := by
  refine ⟨?_, ?_, sphere5_hit 0 Material.Matte⟩
  · intro h
    rw [Sphere.get_closest_intersection, if_pos h]
  · intro hd
    have hnn : ¬ (s.discnm ray < 0) := not_lt.2 hd
    refine ⟨?_, ?_, ?_, ?_⟩
    · rintro ⟨h1, h2⟩
      rw [Sphere.get_closest_intersection, if_neg hnn, if_pos ⟨h1, h2⟩]
      rcases lt_or_le (s.t1 ray) (s.t2 ray) with hlt | hle
      · rw [if_pos hlt, min_eq_left hlt.le]
      · rw [if_neg (not_lt.2 hle), min_eq_right hle]
    · rintro ⟨h1, h2⟩
      rw [Sphere.get_closest_intersection, if_neg hnn,
        if_neg (fun hc => h2 hc.2), if_pos h1]
    · rintro ⟨h1, h2⟩
      rw [Sphere.get_closest_intersection, if_neg hnn,
        if_neg (fun hc => h1 hc.1), if_neg h1, if_pos h2]
    · rintro ⟨h1, h2⟩
      rw [Sphere.get_closest_intersection, if_neg hnn,
        if_neg (fun hc => h1 hc.1), if_neg h1, if_neg h2]

/-- Witness for C3: a sphere the ray misses (negative discriminant). -/
theorem sphere_intersection_spec_witness :
    Sphere.discnm sphereD ray00 < 0 ∧
    sphereD.get_closest_intersection ray00 trMain = none := by
  have hd : Sphere.discnm sphereD ray00 = -96 := by
    norm_num [Sphere.discnm, Sphere.qa, Sphere.qb, Sphere.qc, Sphere.co,
      Vec3d.dot, Vec3d.sub_def, sphereD, ray00]
  constructor
  · rw [hd]; norm_num
  · exact (sphere_intersection_spec sphereD ray00 trMain).1 (by rw [hd]; norm_num)

theorem tri0_det : tri0.det ray1 = 1 := by
  norm_num [Triangle.det, Triangle.e1, Triangle.e2, Triangle.vCrossE2,
    Vec3d.cross, Vec3d.dot, Vec3d.sub_def, tri0, ray1,
    Matrix.cons_val_zero, Matrix.cons_val_one, Matrix.head_cons,
    Matrix.cons_val_two, Matrix.tail_cons]

theorem tri0_u : tri0.u ray1 = 1 / 10 := by
  rw [Triangle.u, Triangle.invDet, tri0_det]
  norm_num [Triangle.sv, Triangle.vCrossE2, Triangle.e2,
    Vec3d.cross, Vec3d.dot, Vec3d.sub_def, tri0, ray1,
    Matrix.cons_val_zero, Matrix.cons_val_one, Matrix.head_cons,
    Matrix.cons_val_two, Matrix.tail_cons]

theorem tri0_av : tri0.av ray1 = 1 / 10 := by
  rw [Triangle.av, Triangle.invDet, tri0_det]
  norm_num [Triangle.sv, Triangle.sCrossE1, Triangle.e1,
    Vec3d.cross, Vec3d.dot, Vec3d.sub_def, tri0, ray1,
    Matrix.cons_val_zero, Matrix.cons_val_one, Matrix.head_cons,
    Matrix.cons_val_two, Matrix.tail_cons]

theorem tri0_tv : tri0.tv ray1 = 5 := by
  rw [Triangle.tv, Triangle.invDet, tri0_det]
  norm_num [Triangle.sv, Triangle.sCrossE1, Triangle.e1, Triangle.e2,
    Vec3d.cross, Vec3d.dot, Vec3d.sub_def, tri0, ray1,
    Matrix.cons_val_zero, Matrix.cons_val_one, Matrix.head_cons,
    Matrix.cons_val_two, Matrix.tail_cons]

/-- C4: the Möller–Trumbore triangle intersection rejects near-zero
determinants (in particular an exactly parallel ray, `det = 0`, never
hits), out-of-range barycentric coordinates (`u ∉ [0,1]`, `v < 0`,
`u + v > 1`) and out-of-range `t`, and otherwise accepts with the `t`
computed from the inverse determinant. -/
theorem triangle_intersection_spec (t : Triangle) (ray : Ray) (tr : TRange) :
    (t.det ray = 0 → t.get_closest_intersection ray tr = none) ∧
    (|t.det ray| < EPSILON → t.get_closest_intersection ray tr = none) ∧
    ((t.u ray < 0 ∨ t.u ray > 1) → t.get_closest_intersection ray tr = none) ∧
    ((t.av ray < 0 ∨ t.u ray + t.av ray > 1) →
      t.get_closest_intersection ray tr = none) ∧
    (¬ tr.contains (t.tv ray) → t.get_closest_intersection ray tr = none) ∧
    ((¬ |t.det ray| < EPSILON) ∧ ¬ (t.u ray < 0 ∨ t.u ray > 1) ∧
        ¬ (t.av ray < 0 ∨ t.u ray + t.av ray > 1) ∧ tr.contains (t.tv ray) →
      t.get_closest_intersection ray tr = some (t.tv ray)) := by
  refine ⟨?_, ?_, ?_, ?_, ?_, ?_⟩
  · intro h
    rw [Triangle.get_closest_intersection, if_pos]
    rw [h]
    constructor
    · norm_num [EPSILON]
    · norm_num [EPSILON]
  · intro h
    rw [Triangle.get_closest_intersection, if_pos (abs_lt.1 h)]
  · intro h
    rw [Triangle.get_closest_intersection]
    split_ifs <;> rfl
  · intro h
    rw [Triangle.get_closest_intersection]
    split_ifs <;> rfl
  · intro h
    rw [Triangle.get_closest_intersection]
    split_ifs <;> rfl
  · rintro ⟨h1, h2, h3, h4⟩
    rw [Triangle.get_closest_intersection,
      if_neg (fun hc => h1 (abs_lt.2 ⟨hc.1, hc.2⟩)), if_neg h2, if_neg h3,
      if_pos h4]

/-- Witness for C4: the spec's concrete triangle and ray, hitting at
`t = 5`. -/
theorem triangle_intersection_spec_witness :
    tri0.get_closest_intersection ray1 trMain = some 5 := by
  have h := (triangle_intersection_spec tri0 ray1 trMain).2.2.2.2.2
  rw [tri0_tv] at h
  refine h ⟨?_, ?_, ?_, ?_⟩
  · rw [tri0_det]
    norm_num [EPSILON]
  · rw [tri0_u]
    norm_num
  · rw [tri0_av, tri0_u]
    norm_num
  · exact trMain_contains 5 (by norm_num) (by norm_num)

theorem scene0_ci :
    closest_intersection scene0.objs ray00 trMain =
      some (sphereS.toObject, ⟨0, 0, -4⟩) := by
  have hS : sphereS.toObject.get_closest_intersection ray00 trMain = some 4 :=
    sphere5_hit 0xFF0000 (Material.Shiny 1 (1 / 2))
  have h4 : ((4 : ℝ) : WithTop ℝ) < trMain.max := WithTop.coe_lt_coe.2 (by norm_num)
  show closest_intersection [sphereS.toObject] ray00 trMain = _
  simp only [closest_intersection, ciGo, hS, if_pos h4, WithTop.untop'_coe]
  norm_num [Ray.pointAt, ray00, Vec3d.add_def, Vec3d.smul]

/-- C5: tracing with reflection depth 0 against a Shiny hit returns exactly
the direct-lighting color — no recursive call, no blend — whatever the
reflectivity value. -/
theorem trace_ray_depth_zero_shiny (s : Scene) (ray : Ray) (tr : TRange)
    (obj : Object) (p : Vec3d) (se rr : ℝ)
    (hci : closest_intersection s.objs ray tr = some (obj, p))
    (hm : obj.get_material = Material.Shiny se rr) :
    s.trace_ray ray tr 0 =
      Color.scale obj.get_color (s.direct_light_intensity obj p ray) := by
  rw [Scene.trace_ray, hci]
  simp only [hm]
  rw [dif_pos (Or.inl trivial)]

/-- Witness for C5: a one-sphere scene with a Shiny material and no
lights. -/
theorem trace_ray_depth_zero_shiny_witness :
    closest_intersection scene0.objs ray00 trMain =
      some (sphereS.toObject, ⟨0, 0, -4⟩) ∧
    scene0.trace_ray ray00 trMain 0 =
      Color.scale (sphereS.toObject).get_color
        (scene0.direct_light_intensity sphereS.toObject ⟨0, 0, -4⟩ ray00) :=
  ⟨scene0_ci,
    trace_ray_depth_zero_shiny scene0 ray00 trMain sphereS.toObject ⟨0, 0, -4⟩
      1 (1 / 2) scene0_ci rfl⟩

end RayTracer

end
